import Mathlib

/-!
Verification development for the Business Central Environment Inspector
(`src/streamlit_app.py`).

The program's logic is three routines plus a framework-provided result
cache:

* `get_token` — exchanges tenant/client/secret for a bearer token via an
  HTTP POST (source lines 49–67);
* `auth_get` — an authenticated GET helper attaching bearer/accept headers
  and decoding the body as JSON with a raw-text fallback (lines 86–98);
* `try_endpoints` — tries an ordered list of labelled candidate URLs and
  returns the first 2xx response (lines 103–108).

The HTTP layer is modelled by an oracle `Net : Call → Except String Response`
mapping each outbound request to either a response or a raised exception
(the exception's rendered text).  The ambient JSON decoder of the HTTP
library (`r.json()`) is modelled by a parameter
`ParseFn : String → Except String Json`: it returns the decoded value of a
body that is valid JSON, and a parse-error message otherwise.  Each
embedded routine returns its result paired with the ordered list of HTTP
calls it issued, making "no network call", "calls in list order" and the
timeout of each call directly observable.
-/

/-- JSON values, as produced by the HTTP library's body decoder. -/
inductive Json where
  | null : Json
  | bool : Bool → Json
  | num : Int → Json
  | str : String → Json
  | arr : List Json → Json
  | obj : List (String × Json) → Json

/-- Base for BC APIs (source line 9). -/
def BC_RESOURCE : String := "https://api.businesscentral.dynamics.com"

/-- OAuth scope (source line 10). -/
def TOKEN_SCOPE : String := BC_RESOURCE ++ "/.default"

/-- Authority base URL (source line 11). -/
def AUTH_BASE : String := "https://login.microsoftonline.com"

/-- Bounds and default of the HTTP-timeout widget (source line 44):
`st.number_input` with minimum 5, maximum 60 and initial value 20. -/
def timeout_min : Nat := 5

/-- Maximum of the HTTP-timeout widget (source line 44). -/
def timeout_max : Nat := 60

/-- Default of the HTTP-timeout widget (source line 44). -/
def timeout_default : Nat := 20

/-- An outbound HTTP request, with the headers, form data, query
parameters and timeout it was issued with. -/
inductive Call where
  | post (url : String) (data : List (String × String)) (timeout : Nat)
  | get (url : String) (headers : List (String × String))
      (params : List (String × String)) (timeout : Nat)

/-- The timeout an HTTP call was issued with. -/
def callTimeout : Call → Nat
  | .post _ _ t => t
  | .get _ _ _ t => t

/-- The headers an HTTP call was issued with (a POST from this program
sends form data, no custom headers). -/
def callHeaders : Call → List (String × String)
  | .post _ _ _ => []
  | .get _ h _ _ => h

/-- An HTTP response: status code, raw body text and response headers. -/
structure Response where
  status : Nat
  text : String
  headers : List (String × String)

/-- The network environment: what each issued call comes back with.
`Except.error e` models a transport-level exception whose rendered text
is `e`; `Except.ok r` a delivered response. -/
def Net : Type := Call → Except String Response

/-- The HTTP library's JSON body decoder (`r.json()`): the decoded value
when the body text is valid JSON, otherwise a parse-error message
(the text of the raised decode exception). -/
def ParseFn : Type := String → Except String Json

/-- Python's `dict.get key default` on a decoded JSON value: looking a key
up succeeds only on an object (on any other value Python raises an
`AttributeError`, modelled by the error case). -/
def dictGet (js : Json) (key : String) (dflt : Json) : Except String Json :=
  match js with
  | .obj kvs => .ok ((kvs.lookup key).getD dflt)
  | _ => .error "object has no attribute get"

/-- The token endpoint URL built by `get_token` (source line 53). -/
def tokenUrl (tenant_id : String) : String :=
  AUTH_BASE ++ "/" ++ tenant_id ++ "/oauth2/v2.0/token"

/-- The form body of the token request (source lines 54–59). -/
def tokenData (client_id client_secret : String) : List (String × String) :=
  [("client_id", client_id),
   ("client_secret", client_secret),
   ("grant_type", "client_credentials"),
   ("scope", TOKEN_SCOPE)]

/-- The token POST issued by `get_token` (source line 61): note the
hard-coded 30-second timeout. -/
def tokenCall (tenant_id client_id client_secret : String) : Call :=
  Call.post (tokenUrl tenant_id) (tokenData client_id client_secret) 30

/-- `get_token` (source lines 50–67).  Returns the `(ok, token-or-message)`
pair together with the list of HTTP calls issued.  The whole body after
the emptiness check sits in one `try`: a transport exception, a JSON
decode failure of a 200 body, and a `.get` on a non-object all land in
the `Token exception` branch.  The second component of the pair is a
`Json` value because `r.json().get("access_token", "")` returns whatever
the field holds; every message branch wraps its string in `Json.str`. -/
def get_token (net : Net) (parse : ParseFn)
    (tenant_id client_id client_secret : String) :
    (Bool × Json) × List Call :=
  if tenant_id = "" ∨ client_id = "" ∨ client_secret = "" then
    ((false, Json.str "Missing tenant/client/secret."), [])
  else
    let call := tokenCall tenant_id client_id client_secret
    match net call with
    | .error e => ((false, Json.str ("Token exception: " ++ e)), [call])
    | .ok r =>
      if r.status = 200 then
        match parse r.text with
        | .error e => ((false, Json.str ("Token exception: " ++ e)), [call])
        | .ok js =>
          match dictGet js "access_token" (Json.str "") with
          | .error e => ((false, Json.str ("Token exception: " ++ e)), [call])
          | .ok tok => ((true, tok), [call])
      else
        ((false,
          Json.str ("Token error " ++ toString r.status ++ ": " ++ r.text)),
         [call])

/-- The default headers `auth_get` builds (source lines 87–90). -/
def defaultHeaders (access_token : String) : List (String × String) :=
  [("Authorization", "Bearer " ++ access_token),
   ("Accept", "application/json")]

/-- Python's `dict.update` viewed on association lists with unique keys:
keys already in `base` keep their position and take the value from `upd`
when present, and keys only in `upd` are appended in `upd` order. -/
def dictUpdate (base upd : List (String × String)) :
    List (String × String) :=
  base.map (fun p => (p.1, ((upd.lookup p.1).getD p.2))) ++
    upd.filter (fun p => ((base.lookup p.1).isNone : Bool))

/-- The decoded body `auth_get` returns: the JSON value when the body
parses, the raw text unmodified otherwise. -/
inductive Decoded where
  | json : Json → Decoded
  | text : String → Decoded

/-- Body decoding of `auth_get` (source lines 94–97): try `r.json()`,
fall back to `r.text` on a decode exception. -/
def decodeBody (parse : ParseFn) (r : Response) : Decoded :=
  match parse r.text with
  | .ok j => Decoded.json j
  | .error _ => Decoded.text r.text

/-- `auth_get` (source lines 86–98).  Builds the default bearer/accept
headers, merges caller headers over them when a non-empty header dict is
passed (`if headers:` is false on `None` and on an empty dict), issues
the GET with the configured timeout, and returns
`(status, decoded body, headers)`.  Only the JSON decode is inside a
`try`: a transport exception from the GET itself propagates, hence the
`Except` result. -/
def auth_get (net : Net) (parse : ParseFn)
    (access_token : String) (timeout_s : Nat) (url : String)
    (headers : Option (List (String × String)))
    (params : Option (List (String × String))) :
    Except String (Nat × Decoded × List (String × String)) × List Call :=
  let base := defaultHeaders access_token
  let h :=
    match headers with
    | none => base
    | some hs => if hs.isEmpty then base else dictUpdate base hs
  let call := Call.get url h (params.getD []) timeout_s
  match net call with
  | .error e => (.error e, [call])
  | .ok r => (.ok (r.status, decodeBody parse r, r.headers), [call])

/-- The GET that `try_endpoints` issues for a candidate URL: `auth_get`
with no extra headers and no query parameters (source line 106). -/
def probeCall (access_token : String) (timeout_s : Nat) (url : String) :
    Call :=
  Call.get url (defaultHeaders access_token) [] timeout_s

/-- The record `try_endpoints` returns for the first successful
candidate (source line 108). -/
structure ProbeResult where
  label : String
  url : String
  data : Decoded

/-- `try_endpoints` (source lines 103–108).  Tries each `(label, url)`
candidate in order with `auth_get`, returns the first whose status code
is in `[200, 300)`, and `none` when the list is exhausted (the Python
function falls off the loop and implicitly returns `None`).  A transport
exception raised inside `auth_get` is not caught here and propagates. -/
def try_endpoints (net : Net) (parse : ParseFn)
    (access_token : String) (timeout_s : Nat) :
    List (String × String) → Except String (Option ProbeResult) × List Call
  | [] => (.ok none, [])
  | (label, url) :: rest =>
    match auth_get net parse access_token timeout_s url none none with
    | (.error e, calls) => (.error e, calls)
    | (.ok (code, js, _), calls) =>
      if 200 ≤ code ∧ code < 300 then
        (.ok (some ⟨label, url, js⟩), calls)
      else
        let next := try_endpoints net parse access_token timeout_s rest
        (next.1, calls ++ next.2)

/-- Cache time-to-live in seconds, from the decorator on `get_token`
(source line 49): `ttl=60`. -/
def cacheTtl : Nat := 60

/-- Cache capacity, from the decorator on `get_token` (source line 49):
`max_entries=16`. -/
def cacheMaxEntries : Nat := 16

/-- One memoized `get_token` result: the credential triple it is keyed
by, the cached value and the second (as absolute time) it was stored. -/
structure CacheEntry where
  key : String × String × String
  value : Bool × Json
  insertedAt : Nat

/-- Whether a cache entry answers a lookup for `key` at time `now`:
same key and younger than the time-to-live. -/
def entryLive (now : Nat) (key : String × String × String)
    (e : CacheEntry) : Bool :=
  decide (e.key = key) && decide (now < e.insertedAt + cacheTtl)

/-- Modelled from the spec: the lookup half of the result cache that the
framework decorator `st.cache_data(ttl=60, max_entries=16)` wraps around
`get_token` (source line 49); the decorator's implementation is not part
of this repository.  Per the spec, the cache is a bounded map keyed by
the argument tuple whose entries expire after a fixed duration. -/
def cacheLookup (entries : List CacheEntry) (now : Nat)
    (key : String × String × String) : Option (Bool × Json) :=
  (entries.find? (entryLive now key)).map (fun e => e.value)

/-- Modelled from the spec: eviction of the oldest entries beyond the
capacity bound — the cache keeps at most `cacheMaxEntries` entries,
dropping from the front (oldest first). -/
def evict (l : List CacheEntry) : List CacheEntry :=
  if cacheMaxEntries < l.length then l.drop (l.length - cacheMaxEntries)
  else l

/-- Modelled from the spec: the memoizing wrapper that the framework
decorator `st.cache_data(ttl=60, max_entries=16)` puts around `get_token`
(source line 49); the decorator's implementation is not part of this
repository.  Per the spec it is "an explicit bounded map with stored
insertion/expiry timestamps and eviction of the oldest entry beyond
capacity": a hit within the time window returns the memoized value with
no network call; a miss runs `get_token`, stores the result stamped
`now`, and drops the oldest entries beyond the capacity bound.  Returns
`(value, calls issued, updated cache)`. -/
def cached_get_token (net : Net) (parse : ParseFn) (now : Nat)
    (tenant_id client_id client_secret : String)
    (entries : List CacheEntry) :
    (Bool × Json) × List Call × List CacheEntry :=
  let key := (tenant_id, client_id, client_secret)
  match cacheLookup entries now key with
  | some v => (v, [], entries)
  | none =>
    let fresh := get_token net parse tenant_id client_id client_secret
    let kept := entries.filter (fun e => (!decide (e.key = key) : Bool))
    (fresh.1, fresh.2, evict (kept ++ [⟨key, fresh.1, now⟩]))

/-- The 401 body of the spec's auth-failure scenario. -/
def body401 : String := "\x7b\"error\":\"invalid_client\"\x7d"

/-- A token-endpoint success body. -/
def bodyTok : String := "\x7b\"access_token\":\"abc\"\x7d"

/-- A concrete JSON decoder environment covering the bodies used in the
concrete scenarios; on anything else it raises the decoder's usual
parse-error text. -/
def toyParse : ParseFn := fun s =>
  if s = "[]" then .ok (Json.arr [])
  else if s = bodyTok then .ok (Json.obj [("access_token", Json.str "abc")])
  else if s = body401 then .ok (Json.obj [("error", Json.str "invalid_client")])
  else .error "Expecting value: line 1 column 1 (char 0)"

/-- A network in which every request raises a connection exception. -/
def netDown : Net := fun _ => .error "ConnectionError"

/-- A network whose token endpoint answers 401 with the invalid-client
body. -/
def netToken401 : Net := fun c =>
  match c with
  | .post _ _ _ => .ok ⟨401, body401, []⟩
  | .get _ _ _ _ => .error "unreachable"

/-- A network whose token endpoint answers 200 with a JSON body holding
an access token. -/
def netToken200 : Net := fun c =>
  match c with
  | .post _ _ _ => .ok ⟨200, bodyTok, []⟩
  | .get _ _ _ _ => .error "unreachable"

/-- A network whose token endpoint answers 200 with a body that is not
valid JSON. -/
def netBadBody : Net := fun c =>
  match c with
  | .post _ _ _ => .ok ⟨200, "notjson", []⟩
  | .get _ _ _ _ => .error "unreachable"

/-- A network realising the spec's probe scenario: the URL `uA` answers
404 and every other URL answers 200 with body `[]`. -/
def netProbe3 : Net := fun c =>
  match c with
  | .post _ _ _ => .error "unreachable"
  | .get u _ _ _ =>
    if u = "uA" then .ok ⟨404, "nf", []⟩ else .ok ⟨200, "[]", []⟩

/-- A network in which every GET answers 404. -/
def netAllFail : Net := fun c =>
  match c with
  | .post _ _ _ => .error "unreachable"
  | .get _ _ _ _ => .ok ⟨404, "nf", []⟩

/-- The cached value component of `cached_get_token`. -/
def cgtValue (net : Net) (parse : ParseFn) (now : Nat)
    (t c s : String) (entries : List CacheEntry) : Bool × Json :=
  (cached_get_token net parse now t c s entries).1

/-- The calls issued by one `cached_get_token` invocation. -/
def cgtCalls (net : Net) (parse : ParseFn) (now : Nat)
    (t c s : String) (entries : List CacheEntry) : List Call :=
  (cached_get_token net parse now t c s entries).2.1

/-- The cache state after one `cached_get_token` invocation. -/
def cgtState (net : Net) (parse : ParseFn) (now : Nat)
    (t c s : String) (entries : List CacheEntry) : List CacheEntry :=
  (cached_get_token net parse now t c s entries).2.2

/-! ## General lemmas about association-list operations -/

/-- Looking a key up in an appended list finds the left list's binding
when it has one. -/
theorem lookup_append_some {α β : Type} [BEq α] (l1 l2 : List (α × β))
    (k : α) (v : β) (h : l1.lookup k = some v) :
    (l1 ++ l2).lookup k = some v := by
  induction l1 with
  | nil => simp [List.lookup] at h
  | cons p t ih =>
    rw [List.cons_append]
    cases hk : (k == p.1) with
    | true =>
      simp [List.lookup, hk] at h ⊢
      exact h
    | false =>
      simp [List.lookup, hk] at h ⊢
      exact ih h

/-- Looking a key up in an appended list falls through to the right list
when the left list has no binding. -/
theorem lookup_append_none {α β : Type} [BEq α] (l1 l2 : List (α × β))
    (k : α) (h : l1.lookup k = none) :
    (l1 ++ l2).lookup k = l2.lookup k := by
  induction l1 with
  | nil => rfl
  | cons p t ih =>
    rw [List.cons_append]
    cases hk : (k == p.1) with
    | true => simp [List.lookup, hk] at h
    | false =>
      simp [List.lookup, hk] at h ⊢
      exact ih h

/-- Rewriting every value of an association list while keeping its keys
commutes with lookup. -/
theorem lookup_map_update (base upd : List (String × String)) (k : String) :
    ((base.map (fun p => (p.1, ((upd.lookup p.1).getD p.2)))).lookup k) =
      (base.lookup k).map (fun v => (upd.lookup k).getD v) := by
  induction base with
  | nil => rfl
  | cons p t ih =>
    cases hk : (k == p.1) with
    | true =>
      have hk2 : k = p.1 := eq_of_beq hk
      simp [List.lookup, hk, hk2]
    | false =>
      simp [List.lookup, hk]
      exact ih

/-- Restricting an association list to the keys absent from `base` does
not change the lookup at a key absent from `base`. -/
theorem lookup_filter_pred (base upd : List (String × String))
    (k : String) (hb : base.lookup k = none) :
    ((upd.filter
        (fun p => (((base.lookup p.1).isNone : Bool)))).lookup k) =
      upd.lookup k := by
  induction upd with
  | nil => rfl
  | cons p t ih =>
    cases hqa : ((base.lookup p.1).isNone : Bool) with
    | true =>
      cases hk : (k == p.1) with
      | true => simp [List.filter, hqa, List.lookup, hk]
      | false => simp [List.filter, hqa, List.lookup, hk, ih]
    | false =>
      cases hk : (k == p.1) with
      | true =>
        have hk2 : k = p.1 := eq_of_beq hk
        rw [← hk2, hb] at hqa
        exact absurd hqa (by simp)
      | false => simp [List.filter, hqa, List.lookup, hk, ih]

/-- A caller-supplied binding wins in `dictUpdate`. -/
theorem dictUpdate_lookup_override (base upd : List (String × String))
    (k v : String) (h : upd.lookup k = some v) :
    (dictUpdate base upd).lookup k = some v := by
  unfold dictUpdate
  cases hb : base.lookup k with
  | some bv =>
    apply lookup_append_some
    rw [lookup_map_update, hb, h]
    rfl
  | none =>
    rw [lookup_append_none]
    · rw [lookup_filter_pred base upd k hb]
      exact h
    · rw [lookup_map_update, hb]
      rfl

/-- A key the caller does not supply keeps its default binding in
`dictUpdate`. -/
theorem dictUpdate_lookup_default (base upd : List (String × String))
    (k : String) (h : upd.lookup k = none) :
    (dictUpdate base upd).lookup k = base.lookup k := by
  unfold dictUpdate
  cases hb : base.lookup k with
  | some bv =>
    apply lookup_append_some
    rw [lookup_map_update, hb, h]
    rfl
  | none =>
    rw [lookup_append_none]
    · rw [lookup_filter_pred base upd k hb, h]
    · rw [lookup_map_update, hb]
      rfl

/-- `List.find?` skips a prefix on which the predicate is everywhere
false. -/
theorem find_append_all_false {α : Type} (p : α → Bool) (l1 l2 : List α)
    (h : ∀ x ∈ l1, p x = false) :
    List.find? p (l1 ++ l2) = List.find? p l2 := by
  induction l1 with
  | nil => rfl
  | cons a t ih =>
    have ha := h a (List.mem_cons_self a t)
    rw [List.cons_append, List.find?_cons_of_neg _ (by simp [ha])]
    exact ih (fun x hx => h x (List.mem_cons_of_mem a hx))

/-! ## Claim theorems -/

/-- C3: for every credential triple with at least one empty field,
`get_token` returns the missing-credentials failure immediately and
issues no HTTP call (the call trace is empty). -/
theorem get_token_missing_credentials (net : Net) (parse : ParseFn)
    (t c s : String) (h : t = "" ∨ c = "" ∨ s = "") :
    get_token net parse t c s =
      ((false, Json.str "Missing tenant/client/secret."), []) := by
  unfold get_token
  rw [if_pos h]

/-- Witness for C3 at the concrete triple `("", "x", "y")`. -/
theorem get_token_missing_credentials_witness :
    (("" : String) = "" ∨ ("x" : String) = "" ∨ ("y" : String) = "") ∧
    get_token netDown toyParse "" "x" "y" =
      ((false, Json.str "Missing tenant/client/secret."), []) :=
  ⟨Or.inl rfl,
   get_token_missing_credentials netDown toyParse "" "x" "y" (Or.inl rfl)⟩

/-- C2: with non-empty credentials and a token response whose body
decodes to a JSON object, `get_token` succeeds with the body's
`access_token` field (empty string when absent) exactly when the status
is 200, and on any other status fails with a message that is literally
`"Token error " ++ status ++ ": " ++ body` — hence contains the status
code and the raw body. -/
theorem get_token_status_dichotomy (net : Net) (parse : ParseFn)
    (t c s : String) (r : Response) (kvs : List (String × Json))
    (ht : t ≠ "") (hc : c ≠ "") (hs : s ≠ "")
    (hr : net (tokenCall t c s) = .ok r)
    (hp : parse r.text = .ok (Json.obj kvs)) :
    (r.status = 200 →
      get_token net parse t c s =
        ((true, (kvs.lookup "access_token").getD (Json.str "")),
         [tokenCall t c s])) ∧
    (r.status ≠ 200 →
      get_token net parse t c s =
        ((false,
          Json.str ("Token error " ++ toString r.status ++ ": " ++ r.text)),
         [tokenCall t c s])) ∧
    ((get_token net parse t c s).1.1 = true ↔ r.status = 200) := by
  have hcond : ¬(t = "" ∨ c = "" ∨ s = "") := by
    push_neg
    exact ⟨ht, hc, hs⟩
  refine ⟨?_, ?_, ?_⟩
  · intro h200
    simp [get_token, hcond, hr, h200, hp, dictGet]
  · intro h200
    simp [get_token, hcond, hr, h200, hp]
  · by_cases h200 : r.status = 200
    · simp [get_token, hcond, hr, h200, hp, dictGet]
    · simp [get_token, hcond, hr, h200, hp]

/-- Witness for C2: the spec's 401 scenario with body
`{"error":"invalid_client"}` yields failure and the literal message
`Token error 401: {"error":"invalid_client"}`. -/
theorem get_token_status_dichotomy_witness :
    ("t" : String) ≠ "" ∧ ("c" : String) ≠ "" ∧ ("s" : String) ≠ "" ∧
    netToken401 (tokenCall "t" "c" "s") =
      .ok ⟨401, body401, []⟩ ∧
    toyParse body401 = .ok (Json.obj [("error", Json.str "invalid_client")]) ∧
    ("Token error " ++ toString (401 : Nat) ++ ": " ++ body401 =
      "Token error 401: \x7b\"error\":\"invalid_client\"\x7d") ∧
    get_token netToken401 toyParse "t" "c" "s" =
      ((false,
        Json.str ("Token error " ++ toString (401 : Nat) ++ ": " ++ body401)),
       [tokenCall "t" "c" "s"]) :=
  ⟨by decide, by decide, by decide, rfl, rfl, rfl,
   (get_token_status_dichotomy netToken401 toyParse "t" "c" "s"
      ⟨401, body401, []⟩ [("error", Json.str "invalid_client")]
      (by decide) (by decide) (by decide) rfl rfl).2.1 (by decide)⟩

/-- C9: with non-empty credentials, a 200 token response whose body does
not parse as JSON makes `get_token` fail with a `Token exception`
message carrying the decoder's error text, because the JSON decode of
the 200 body runs inside the same exception handler as the POST. -/
theorem get_token_200_invalid_json (net : Net) (parse : ParseFn)
    (t c s : String) (r : Response) (e : String)
    (ht : t ≠ "") (hc : c ≠ "") (hs : s ≠ "")
    (hr : net (tokenCall t c s) = .ok r)
    (h200 : r.status = 200)
    (hp : parse r.text = .error e) :
    get_token net parse t c s =
      ((false, Json.str ("Token exception: " ++ e)), [tokenCall t c s]) := by
  have hcond : ¬(t = "" ∨ c = "" ∨ s = "") := by
    push_neg
    exact ⟨ht, hc, hs⟩
  simp [get_token, hcond, hr, h200, hp]

/-- Witness for C9: a 200 answer with body `notjson` produces the
decoder's parse-error text inside a `Token exception` failure. -/
theorem get_token_200_invalid_json_witness :
    ("t" : String) ≠ "" ∧ ("c" : String) ≠ "" ∧ ("s" : String) ≠ "" ∧
    netBadBody (tokenCall "t" "c" "s") = .ok ⟨200, "notjson", []⟩ ∧
    toyParse "notjson" =
      .error "Expecting value: line 1 column 1 (char 0)" ∧
    get_token netBadBody toyParse "t" "c" "s" =
      ((false,
        Json.str
          ("Token exception: " ++ "Expecting value: line 1 column 1 (char 0)")),
       [tokenCall "t" "c" "s"]) :=
  ⟨by decide, by decide, by decide, rfl, rfl,
   get_token_200_invalid_json netBadBody toyParse "t" "c" "s"
     ⟨200, "notjson", []⟩ "Expecting value: line 1 column 1 (char 0)"
     (by decide) (by decide) (by decide) rfl rfl rfl⟩

/-- C5: for every URL whose GET is answered, `auth_get` (with no extra
headers) issues exactly one GET carrying the bearer `Authorization` and
`Accept: application/json` headers, and returns the status code, the
decoded body and the response headers, where the decoded body is the
JSON value when the body parses and the raw text unmodified
otherwise. -/
theorem auth_get_contract (net : Net) (parse : ParseFn)
    (tok : String) (tmo : Nat) (url : String) (r : Response)
    (hr : net (probeCall tok tmo url) = .ok r) :
    auth_get net parse tok tmo url none none =
      (.ok (r.status, decodeBody parse r, r.headers),
       [probeCall tok tmo url]) ∧
    probeCall tok tmo url =
      Call.get url
        [("Authorization", "Bearer " ++ tok),
         ("Accept", "application/json")] [] tmo ∧
    (∀ j, parse r.text = .ok j → decodeBody parse r = Decoded.json j) ∧
    (∀ e, parse r.text = .error e → decodeBody parse r = Decoded.text r.text) := by
  have hr2 : net (Call.get url (defaultHeaders tok) [] tmo) = .ok r := by
    simpa [probeCall] using hr
  refine ⟨?_, ?_, ?_, ?_⟩
  · simp [auth_get, probeCall, hr2]
  · simp [probeCall, defaultHeaders]
  · intro j hj
    simp [decodeBody, hj]
  · intro e he
    simp [decodeBody, he]

/-- Witness for C5 at the URL `uB`, answered 200 with the JSON body
`[]`. -/
theorem auth_get_contract_witness :
    netProbe3 (probeCall "tok" 20 "uB") = .ok ⟨200, "[]", []⟩ ∧
    auth_get netProbe3 toyParse "tok" 20 "uB" none none =
      (.ok (200, decodeBody toyParse ⟨200, "[]", []⟩, []),
       [probeCall "tok" 20 "uB"]) ∧
    decodeBody toyParse ⟨200, "[]", []⟩ = Decoded.json (Json.arr []) :=
  ⟨rfl,
   (auth_get_contract netProbe3 toyParse "tok" 20 "uB" ⟨200, "[]", []⟩ rfl).1,
   (auth_get_contract netProbe3 toyParse "tok" 20 "uB" ⟨200, "[]", []⟩
      rfl).2.2.1 (Json.arr []) rfl⟩

/-- C10: with no extra headers `auth_get` sends exactly the two default
headers; with a non-empty extra-header dict it sends the defaults merged
under the caller's entries, so a caller binding for a key (for instance
`Authorization` or `Accept`) replaces the default for that request,
while keys the caller does not bind keep their default value. -/
theorem auth_get_header_merge (net : Net) (parse : ParseFn)
    (tok : String) (tmo : Nat) (url : String) :
    ((auth_get net parse tok tmo url none none).2 =
      [Call.get url (defaultHeaders tok) [] tmo]) ∧
    (∀ hs, hs ≠ [] →
      (auth_get net parse tok tmo url (some hs) none).2 =
        [Call.get url (dictUpdate (defaultHeaders tok) hs) [] tmo]) ∧
    (∀ hs k v, hs.lookup k = some v →
      (dictUpdate (defaultHeaders tok) hs).lookup k = some v) ∧
    (∀ hs k, hs.lookup k = none →
      (dictUpdate (defaultHeaders tok) hs).lookup k =
        (defaultHeaders tok).lookup k) := by
  refine ⟨?_, ?_, ?_, ?_⟩
  · cases hnet : net (Call.get url (defaultHeaders tok) [] tmo) with
    | error e => simp [auth_get, hnet]
    | ok r => simp [auth_get, hnet]
  · intro hs hne
    have hemp : hs.isEmpty = false := by
      cases hs with
      | nil => exact absurd rfl hne
      | cons a t => rfl
    cases hnet :
        net (Call.get url (dictUpdate (defaultHeaders tok) hs) [] tmo) with
    | error e => simp [auth_get, hemp, hnet]
    | ok r => simp [auth_get, hemp, hnet]
  · intro hs k v h
    exact dictUpdate_lookup_override (defaultHeaders tok) hs k v h
  · intro hs k h
    exact dictUpdate_lookup_default (defaultHeaders tok) hs k h

/-- Witness for C10: a caller header `Authorization: Bearer other`
replaces the default bearer header while `Accept` keeps its default. -/
theorem auth_get_header_merge_witness :
    (([("Authorization", "Bearer other")] :
        List (String × String)) ≠ []) ∧
    (([("Authorization", "Bearer other")] :
        List (String × String)).lookup "Authorization" =
      some "Bearer other") ∧
    (([("Authorization", "Bearer other")] :
        List (String × String)).lookup "Accept" = none) ∧
    ((auth_get netAllFail toyParse "tok" 20 "uB"
        (some [("Authorization", "Bearer other")]) none).2 =
      [Call.get "uB"
        (dictUpdate (defaultHeaders "tok")
          [("Authorization", "Bearer other")]) [] 20]) ∧
    ((dictUpdate (defaultHeaders "tok")
        [("Authorization", "Bearer other")]).lookup "Authorization" =
      some "Bearer other") ∧
    ((dictUpdate (defaultHeaders "tok")
        [("Authorization", "Bearer other")]).lookup "Accept" =
      (defaultHeaders "tok").lookup "Accept") :=
  ⟨by decide, by decide, by decide,
   (auth_get_header_merge netAllFail toyParse "tok" 20 "uB").2.1
     [("Authorization", "Bearer other")] (by decide),
   (auth_get_header_merge netAllFail toyParse "tok" 20 "uB").2.2.1
     [("Authorization", "Bearer other")] "Authorization" "Bearer other"
     (by decide),
   (auth_get_header_merge netAllFail toyParse "tok" 20 "uB").2.2.2
     [("Authorization", "Bearer other")] "Accept" (by decide)⟩

/-- The calls issued by one `get_token` invocation with non-empty
credentials: exactly the token POST. -/
theorem get_token_calls (net : Net) (parse : ParseFn) (t c s : String)
    (ht : t ≠ "") (hc : c ≠ "") (hs : s ≠ "") :
    (get_token net parse t c s).2 = [tokenCall t c s] := by
  have hcond : ¬(t = "" ∨ c = "" ∨ s = "") := by
    push_neg
    exact ⟨ht, hc, hs⟩
  cases hnet : net (tokenCall t c s) with
  | error e => simp [get_token, hcond, hnet]
  | ok r =>
    by_cases h200 : r.status = 200
    · cases hp : parse r.text with
      | error e => simp [get_token, hcond, hnet, h200, hp]
      | ok js =>
        cases hd : dictGet js "access_token" (Json.str "") with
        | error e => simp [get_token, hcond, hnet, h200, hp, hd]
        | ok tokn => simp [get_token, hcond, hnet, h200, hp, hd]
    · simp [get_token, hcond, hnet, h200]

/-- The single GET that one `auth_get` invocation issues. -/
def authCall (tok : String) (tmo : Nat) (url : String)
    (hs ps : Option (List (String × String))) : Call :=
  Call.get url
    (match hs with
     | none => defaultHeaders tok
     | some l =>
       if l.isEmpty then defaultHeaders tok
       else dictUpdate (defaultHeaders tok) l)
    (ps.getD []) tmo

/-- Every `auth_get` invocation issues exactly one GET, `authCall`. -/
theorem auth_get_trace (net : Net) (parse : ParseFn) (tok : String)
    (tmo : Nat) (url : String)
    (hs ps : Option (List (String × String))) :
    (auth_get net parse tok tmo url hs ps).2 =
      [authCall tok tmo url hs ps] := by
  cases hs with
  | none =>
    cases hnet : net (Call.get url (defaultHeaders tok) (ps.getD []) tmo) with
    | error e => simp [auth_get, authCall, hnet]
    | ok r => simp [auth_get, authCall, hnet]
  | some l =>
    cases hemp : l.isEmpty with
    | true =>
      cases hnet :
          net (Call.get url (defaultHeaders tok) (ps.getD []) tmo) with
      | error e => simp [auth_get, authCall, hemp, hnet]
      | ok r => simp [auth_get, authCall, hemp, hnet]
    | false =>
      cases hnet :
          net (Call.get url (dictUpdate (defaultHeaders tok) l)
            (ps.getD []) tmo) with
      | error e => simp [auth_get, authCall, hemp, hnet]
      | ok r => simp [auth_get, authCall, hemp, hnet]

/-- C7 counterexample: the token POST of `get_token` is issued with a
hard-coded 30-second timeout (source line 61), not with the configured
timeout, whose default is 20 — so not every HTTP call uses the
user-configured timeout. -/
theorem get_token_fixed_timeout_counterexample :
    (get_token netToken200 toyParse "t" "c" "s").2.map callTimeout = [30] ∧
    timeout_default = 20 ∧ (30 : Nat) ≠ timeout_default :=
  ⟨by decide, rfl, by decide⟩

/-- C7 as amended: every GET issued through `auth_get` uses the
configured timeout (whose widget has default 20 and bounds 5–60), but
the token POST of `get_token` always uses a fixed 30-second timeout. -/
theorem http_timeout_policy (net : Net) (parse : ParseFn) :
    (∀ tok tmo url hs ps,
      (auth_get net parse tok tmo url hs ps).2.map callTimeout = [tmo]) ∧
    (∀ t c s, t ≠ "" → c ≠ "" → s ≠ "" →
      (get_token net parse t c s).2.map callTimeout = [30]) ∧
    timeout_min = 5 ∧ timeout_max = 60 ∧ timeout_default = 20 := by
  refine ⟨?_, ?_, rfl, rfl, rfl⟩
  · intro tok tmo url hs ps
    rw [auth_get_trace]
    simp [authCall, callTimeout]
  · intro t c s ht hc hs
    rw [get_token_calls net parse t c s ht hc hs]
    simp [tokenCall, callTimeout]

/-- Witness for the amended C7 at concrete inputs: a GET with configured
timeout 7 carries timeout 7, while the token POST carries 30. -/
theorem http_timeout_policy_witness :
    ("t" : String) ≠ "" ∧ ("c" : String) ≠ "" ∧ ("s" : String) ≠ "" ∧
    (auth_get netAllFail toyParse "tok" 7 "u" none none).2.map callTimeout =
      [7] ∧
    (get_token netToken200 toyParse "t" "c" "s").2.map callTimeout = [30] :=
  ⟨by decide, by decide, by decide,
   (http_timeout_policy netAllFail toyParse).1 "tok" 7 "u" none none,
   (http_timeout_policy netToken200 toyParse).2.1 "t" "c" "s"
     (by decide) (by decide) (by decide)⟩

/-- C6 counterexample: a transport exception raised during a resource
GET is not caught anywhere in the program: it propagates out of
`auth_get` and `try_endpoints` (only the token call's exceptions are
caught, inside `get_token`). -/
theorem try_endpoints_exception_escapes :
    (try_endpoints netDown toyParse "tok" 20 [("A", "uA")]).1 =
      Except.error "ConnectionError" := rfl

/-- C6 as amended: an exception raised by the token POST is caught in
`get_token` and rendered as a `Token exception` message with no retry
(exactly one call is issued); an exception raised by a resource GET
propagates uncaught out of `auth_get` and `try_endpoints`, with no retry
and no later candidate contacted. -/
theorem exception_containment (net : Net) (parse : ParseFn) :
    (∀ t c s e, t ≠ "" → c ≠ "" → s ≠ "" →
      net (tokenCall t c s) = .error e →
      get_token net parse t c s =
        ((false, Json.str ("Token exception: " ++ e)),
         [tokenCall t c s])) ∧
    (∀ tok tmo url e label rest,
      net (probeCall tok tmo url) = .error e →
      try_endpoints net parse tok tmo ((label, url) :: rest) =
        (.error e, [probeCall tok tmo url])) := by
  constructor
  · intro t c s e ht hc hs hnet
    have hcond : ¬(t = "" ∨ c = "" ∨ s = "") := by
      push_neg
      exact ⟨ht, hc, hs⟩
    simp [get_token, hcond, hnet]
  · intro tok tmo url e label rest hnet
    have hr2 : net (Call.get url (defaultHeaders tok) [] tmo) = .error e := by
      simpa [probeCall] using hnet
    simp [try_endpoints, auth_get, hr2, probeCall]

/-- Witness for the amended C6 on a network that raises on every
request. -/
theorem exception_containment_witness :
    netDown (tokenCall "t" "c" "s") = .error "ConnectionError" ∧
    get_token netDown toyParse "t" "c" "s" =
      ((false, Json.str ("Token exception: " ++ "ConnectionError")),
       [tokenCall "t" "c" "s"]) ∧
    netDown (probeCall "tok" 20 "uA") = .error "ConnectionError" ∧
    try_endpoints netDown toyParse "tok" 20 [("A", "uA")] =
      (.error "ConnectionError", [probeCall "tok" 20 "uA"]) :=
  ⟨rfl,
   (exception_containment netDown toyParse).1 "t" "c" "s" "ConnectionError"
     (by decide) (by decide) (by decide) rfl,
   rfl,
   (exception_containment netDown toyParse).2 "tok" 20 "uA"
     "ConnectionError" "A" [] rfl⟩

/-- C4: when every candidate's GET is answered with a status outside
`[200, 300)` — including the empty candidate list — `try_endpoints`
returns `none` after contacting every candidate in order, and the result
is never the propagated-exception outcome. -/
theorem try_endpoints_all_fail (net : Net) (parse : ParseFn)
    (tok : String) (tmo : Nat) (endpoints : List (String × String))
    (h : ∀ lu ∈ endpoints, ∃ r, net (probeCall tok tmo lu.2) = .ok r ∧
      (r.status < 200 ∨ 300 ≤ r.status)) :
    try_endpoints net parse tok tmo endpoints =
      (.ok none, endpoints.map (fun lu => probeCall tok tmo lu.2)) ∧
    ∀ e, (try_endpoints net parse tok tmo endpoints).1 ≠ Except.error e := by
  have key : ∀ eps : List (String × String),
      (∀ lu ∈ eps, ∃ r, net (probeCall tok tmo lu.2) = .ok r ∧
        (r.status < 200 ∨ 300 ≤ r.status)) →
      try_endpoints net parse tok tmo eps =
        (.ok none, eps.map (fun lu => probeCall tok tmo lu.2)) := by
    intro eps
    induction eps with
    | nil =>
      intro _
      rfl
    | cons hd tl ih =>
      intro hall
      obtain ⟨r, hr, hfail⟩ := hall hd (List.mem_cons_self hd tl)
      obtain ⟨label, url⟩ := hd
      have hr2 : net (Call.get url (defaultHeaders tok) [] tmo) = .ok r := by
        simpa [probeCall] using hr
      have hcond : ¬(200 ≤ r.status ∧ r.status < 300) := by omega
      have htl := ih (fun lu hm => hall lu (List.mem_cons_of_mem _ hm))
      simp [try_endpoints, auth_get, hr2, hcond, htl, probeCall]
  refine ⟨key endpoints h, ?_⟩
  intro e
  rw [key endpoints h]
  simp

/-- Witness for C4: two candidates both answered 404 yield `none` and a
trace visiting both in order. -/
theorem try_endpoints_all_fail_witness :
    (∀ lu ∈ ([("A", "uA"), ("B", "uB")] : List (String × String)),
      ∃ r, netAllFail (probeCall "tok" 20 lu.2) = .ok r ∧
        (r.status < 200 ∨ 300 ≤ r.status)) ∧
    try_endpoints netAllFail toyParse "tok" 20 [("A", "uA"), ("B", "uB")] =
      (.ok none, [probeCall "tok" 20 "uA", probeCall "tok" 20 "uB"]) := by
  have hall : ∀ lu ∈ ([("A", "uA"), ("B", "uB")] : List (String × String)),
      ∃ r, netAllFail (probeCall "tok" 20 lu.2) = .ok r ∧
        (r.status < 200 ∨ 300 ≤ r.status) := by
    intro lu hm
    exact ⟨⟨404, "nf", []⟩, rfl, Or.inr (by decide)⟩
  exact ⟨hall,
    (try_endpoints_all_fail netAllFail toyParse "tok" 20
      [("A", "uA"), ("B", "uB")] hall).1⟩

/-- C1: when every candidate before `(label, url)` is answered with a
non-2xx status and `(label, url)` itself is answered 2xx,
`try_endpoints` returns that candidate's record and its trace is exactly
the authenticated GETs to the preceding candidates followed by the one
to `url`, in list order — no later candidate is contacted. -/
theorem try_endpoints_first_success (net : Net) (parse : ParseFn)
    (tok : String) (tmo : Nat)
    (pre post : List (String × String)) (label url : String) (r : Response)
    (hpre : ∀ lu ∈ pre, ∃ q, net (probeCall tok tmo lu.2) = .ok q ∧
      (q.status < 200 ∨ 300 ≤ q.status))
    (hr : net (probeCall tok tmo url) = .ok r)
    (h2 : 200 ≤ r.status) (h3 : r.status < 300) :
    try_endpoints net parse tok tmo (pre ++ (label, url) :: post) =
      (.ok (some ⟨label, url, decodeBody parse r⟩),
       pre.map (fun lu => probeCall tok tmo lu.2) ++
         [probeCall tok tmo url]) := by
  have hr2 : net (Call.get url (defaultHeaders tok) [] tmo) = .ok r := by
    simpa [probeCall] using hr
  have key : ∀ pr : List (String × String),
      (∀ lu ∈ pr, ∃ q, net (probeCall tok tmo lu.2) = .ok q ∧
        (q.status < 200 ∨ 300 ≤ q.status)) →
      try_endpoints net parse tok tmo (pr ++ (label, url) :: post) =
        (.ok (some ⟨label, url, decodeBody parse r⟩),
         pr.map (fun lu => probeCall tok tmo lu.2) ++
           [probeCall tok tmo url]) := by
    intro pr
    induction pr with
    | nil =>
      intro _
      simp [try_endpoints, auth_get, hr2, h2, h3, probeCall]
    | cons hd tl ih =>
      intro hall
      obtain ⟨q, hq, hfail⟩ := hall hd (List.mem_cons_self hd tl)
      obtain ⟨l2, u2⟩ := hd
      have hq2 : net (Call.get u2 (defaultHeaders tok) [] tmo) = .ok q := by
        simpa [probeCall] using hq
      have hcond : ¬(200 ≤ q.status ∧ q.status < 300) := by omega
      have htl := ih (fun lu hm => hall lu (List.mem_cons_of_mem _ hm))
      simp [try_endpoints, auth_get, hq2, hcond, htl, probeCall]
  exact key pre hpre

/-- Witness for C1: the spec's scenario `[(A,404),(B,200),(C,200)]`
returns candidate B and never contacts C. -/
theorem try_endpoints_first_success_witness :
    netProbe3 (probeCall "tok" 20 "uB") = .ok ⟨200, "[]", []⟩ ∧
    (200 : Nat) ≤ 200 ∧ (200 : Nat) < 300 ∧
    try_endpoints netProbe3 toyParse "tok" 20
        [("A", "uA"), ("B", "uB"), ("C", "uC")] =
      (.ok (some ⟨"B", "uB", decodeBody toyParse ⟨200, "[]", []⟩⟩),
       [probeCall "tok" 20 "uA", probeCall "tok" 20 "uB"]) := by
  have hpre : ∀ lu ∈ ([("A", "uA")] : List (String × String)),
      ∃ q, netProbe3 (probeCall "tok" 20 lu.2) = .ok q ∧
        (q.status < 200 ∨ 300 ≤ q.status) := by
    intro lu hm
    have h : lu = ("A", "uA") := by simpa using hm
    subst h
    exact ⟨⟨404, "nf", []⟩, rfl, Or.inr (by decide)⟩
  exact ⟨rfl, by decide, by decide,
    try_endpoints_first_success netProbe3 toyParse "tok" 20
      [("A", "uA")] [("C", "uC")] "B" "uB" ⟨200, "[]", []⟩
      hpre rfl (by decide) (by decide)⟩

/-- A cache miss runs `get_token` and stores its result stamped with the
current time, evicting beyond capacity. -/
theorem cached_miss (net : Net) (parse : ParseFn) (now : Nat)
    (t c s : String) (entries : List CacheEntry)
    (h : cacheLookup entries now (t, c, s) = none) :
    cached_get_token net parse now t c s entries =
      ((get_token net parse t c s).1, (get_token net parse t c s).2,
       evict
         ((entries.filter
            (fun e => (!decide (e.key = (t, c, s)) : Bool))) ++
          [⟨(t, c, s), (get_token net parse t c s).1, now⟩])) := by
  simp [cached_get_token, h]

/-- A cache hit returns the memoized value, issues no call and leaves
the cache unchanged. -/
theorem cached_hit (net : Net) (parse : ParseFn) (now : Nat)
    (t c s : String) (entries : List CacheEntry) (v : Bool × Json)
    (h : cacheLookup entries now (t, c, s) = some v) :
    cached_get_token net parse now t c s entries = (v, [], entries) := by
  simp [cached_get_token, h]

/-- Evicting a list that ends in `x` drops a prefix of the front part
and always keeps `x`. -/
theorem evict_shape (l : List CacheEntry) (x : CacheEntry) :
    ∃ d, d ≤ l.length ∧ evict (l ++ [x]) = l.drop d ++ [x] := by
  by_cases hc : cacheMaxEntries < (l ++ [x]).length
  · refine ⟨(l ++ [x]).length - cacheMaxEntries, ?_, ?_⟩
    · simp only [List.length_append, List.length_singleton, cacheMaxEntries]
      omega
    · have h0 : (l ++ [x]).length - cacheMaxEntries - l.length = 0 := by
        simp only [List.length_append, List.length_singleton,
          cacheMaxEntries]
        omega
      simp only [evict, hc, if_true, List.drop_append_eq_append_drop, h0,
        List.drop_zero]
  · refine ⟨0, Nat.zero_le _, ?_⟩
    unfold evict
    rw [if_neg hc]
    simp

/-- Eviction keeps the cache within its capacity bound. -/
theorem length_evict_le (l : List CacheEntry)
    (h : l.length ≤ cacheMaxEntries + 1) :
    (evict l).length ≤ cacheMaxEntries := by
  by_cases hc : cacheMaxEntries < l.length
  · simp only [evict, hc, if_true, List.length_drop]
    omega
  · simp only [evict, hc, if_false]
    omega

/-- A lookup in the state left by a store skips the kept entries when
none of them answers it, landing on the stored entry alone. -/
theorem cacheLookup_evict_append (l : List CacheEntry) (x : CacheEntry)
    (now : Nat) (key : String × String × String)
    (hl : ∀ e ∈ l, entryLive now key e = false) :
    cacheLookup (evict (l ++ [x])) now key = cacheLookup [x] now key := by
  obtain ⟨d, hd, heq⟩ := evict_shape l x
  rw [heq]
  unfold cacheLookup
  rw [find_append_all_false _ _ _
    (fun e he => hl e (List.mem_of_mem_drop he))]

/-- C8 (cache modelled from the spec): starting from a state with no
live entry for the credential triple, a first `cached_get_token` call at
`now1` memoizes its result; a second call at `now2` within the time
window returns the identical value, issues no network call and leaves
the cache unchanged; a second call at or after expiry recomputes: its
value and its network calls are those of a fresh `get_token` run; and
the cache never grows beyond its capacity bound. -/
theorem cached_get_token_spec (net : Net) (parse : ParseFn)
    (t c s : String) (st : List CacheEntry) (now1 now2 : Nat)
    (hmiss : cacheLookup st now1 (t, c, s) = none) (h12 : now1 ≤ now2) :
    (now2 < now1 + cacheTtl →
      cached_get_token net parse now2 t c s
          (cgtState net parse now1 t c s st) =
        (cgtValue net parse now1 t c s st, [],
         cgtState net parse now1 t c s st)) ∧
    (now1 + cacheTtl ≤ now2 →
      cgtValue net parse now2 t c s (cgtState net parse now1 t c s st) =
        (get_token net parse t c s).1 ∧
      cgtCalls net parse now2 t c s (cgtState net parse now1 t c s st) =
        (get_token net parse t c s).2) ∧
    (st.length ≤ cacheMaxEntries →
      (cgtState net parse now1 t c s st).length ≤ cacheMaxEntries) := by
  have hstate : cgtState net parse now1 t c s st =
      evict
        ((st.filter (fun e => (!decide (e.key = (t, c, s)) : Bool))) ++
         [⟨(t, c, s), (get_token net parse t c s).1, now1⟩]) := by
    simp [cgtState, cached_miss net parse now1 t c s st hmiss]
  have hval : cgtValue net parse now1 t c s st =
      (get_token net parse t c s).1 := by
    simp [cgtValue, cached_miss net parse now1 t c s st hmiss]
  have hkey : ∀ e ∈ st.filter
      (fun e => (!decide (e.key = (t, c, s)) : Bool)),
      entryLive now2 (t, c, s) e = false := by
    intro e he
    have hm := List.mem_filter.mp he
    have hne : ¬(e.key = (t, c, s)) := by simpa using hm.2
    simp [entryLive, hne]
  refine ⟨?_, ?_, ?_⟩
  · intro hlt
    have hlook : cacheLookup (cgtState net parse now1 t c s st) now2
        (t, c, s) = some (get_token net parse t c s).1 := by
      rw [hstate, cacheLookup_evict_append _ _ _ _ hkey]
      simp [cacheLookup, List.find?, entryLive, hlt]
    rw [cached_hit net parse now2 t c s _ _ hlook, hval]
  · intro hge
    have hnotlt : ¬(now2 < now1 + cacheTtl) := by omega
    have hlook : cacheLookup (cgtState net parse now1 t c s st) now2
        (t, c, s) = none := by
      rw [hstate, cacheLookup_evict_append _ _ _ _ hkey]
      simp [cacheLookup, List.find?, entryLive, hnotlt]
    constructor
    · simp [cgtValue, cached_miss net parse now2 t c s _ hlook]
    · simp [cgtCalls, cached_miss net parse now2 t c s _ hlook]
  · intro hcap
    rw [hstate]
    apply length_evict_le
    have hfil := List.length_filter_le
      (fun e => (!decide (e.key = (t, c, s)) : Bool)) st
    simp only [List.length_append, List.length_singleton]
    omega

/-- Witness for C8: from the empty cache at time 0, a repeat call at
time 30 is answered from the cache, and a repeat call at time 100
re-runs `get_token` with its network call. -/
theorem cached_get_token_spec_witness :
    cacheLookup [] 0 ("t", "c", "s") = none ∧
    (0 : Nat) ≤ 30 ∧ (30 : Nat) < 0 + cacheTtl ∧
    cached_get_token netToken200 toyParse 30 "t" "c" "s"
        (cgtState netToken200 toyParse 0 "t" "c" "s" []) =
      (cgtValue netToken200 toyParse 0 "t" "c" "s" [], [],
       cgtState netToken200 toyParse 0 "t" "c" "s" []) ∧
    (0 : Nat) + cacheTtl ≤ 100 ∧
    cgtCalls netToken200 toyParse 100 "t" "c" "s"
        (cgtState netToken200 toyParse 0 "t" "c" "s" []) =
      (get_token netToken200 toyParse "t" "c" "s").2 :=
  ⟨rfl, by decide, by decide,
   (cached_get_token_spec netToken200 toyParse "t" "c" "s" [] 0 30 rfl
      (by decide)).1 (by decide),
   by decide,
   ((cached_get_token_spec netToken200 toyParse "t" "c" "s" [] 0 100 rfl
      (by decide)).2.1 (by decide)).2⟩
